import Mathlib

/-!
Verification of the camera/sensor time-series processing repository.

The development embeds, over exact rational arithmetic:
  - the fusion loop of Reprocessor.reprocess_data (resim.py),
  - the camera generator FrontCameraSimulation.generate_data (f_cam.py),
  - the sensor generator SensorSimulation.generate_data (sensor.py).

Random draws of the generators are modelled as explicit streams of values
carrying their stated ranges in their types: a call such as uniform(-10, 10)
at loop iteration i is the value of a stream at index i, an element of the
closed interval from -10 to 10.
-/

/-- A camera sample: one row of the camera DataFrame with columns
Timestamp, FrameID, Speed, YawRate, Signal1, Signal2 (f_cam.py line 14). -/
structure CamRow where
  Timestamp : ℚ
  FrameID : ℤ
  Speed : ℚ
  YawRate : ℚ
  Signal1 : ℤ
  Signal2 : ℚ
deriving Repr, DecidableEq, Inhabited

/-- A sensor sample: one row of the sensor DataFrame with columns
Timestamp, Speed (sensor.py line 16). -/
structure SenRow where
  Timestamp : ℚ
  Speed : ℚ
deriving Repr, DecidableEq, Inhabited

/-- The runtime error raised by the fusion loop: indexing the sensor
DataFrame at a row label that does not exist raises a pandas KeyError
(resim.py line 47, expression sensor_data.at with a missing label). -/
inductive ReprocError where
  | keyError (i : ℕ)
deriving Repr, DecidableEq

/-- The inner while loop of Reprocessor.reprocess_data (resim.py lines 43-45):
starting from cursor i, advance while the next sensor row exists and its
timestamp is at or before t.  The fuel argument is the remaining number of
possible advances; it starts at sensor.length - i, which is enough for the
loop to reach its stopping condition, so the function computes exactly the
final cursor of the while loop. -/
def advanceCursorAux (sensor : List SenRow) (t : ℚ) : ℕ → ℕ → ℕ
  | 0, i => i
  | fuel + 1, i =>
    if i + 1 < sensor.length ∧ (sensor.getD (i + 1) default).Timestamp ≤ t then
      advanceCursorAux sensor t fuel (i + 1)
    else i

/-- The cursor position after the while loop of resim.py lines 43-45,
started at cursor i with the camera timestamp t. -/
def advanceCursor (sensor : List SenRow) (t : ℚ) (i : ℕ) : ℕ :=
  advanceCursorAux sensor t (sensor.length - i) i

/-- The row loop of Reprocessor.reprocess_data (resim.py lines 39-47): the
cursor i persists across camera rows; for each camera row the cursor is
advanced, then the output row is the camera row with Speed replaced by the
average of the camera speed and the sensor speed at the cursor.  Reading
the sensor row at an out-of-range cursor (possible exactly when the sensor
series is empty) raises a KeyError, modelled as an error value. -/
def reprocessAux (sensor : List SenRow) : List CamRow → ℕ → Except ReprocError (List CamRow)
  | [], _ => Except.ok []
  | row :: rest, i =>
    let j := advanceCursor sensor row.Timestamp i
    if j < sensor.length then
      match reprocessAux sensor rest j with
      | Except.ok out =>
          Except.ok ({ row with Speed := (row.Speed + (sensor.getD j default).Speed) / 2 } :: out)
      | Except.error e => Except.error e
    else Except.error (ReprocError.keyError j)

/-- Reprocessor.reprocess_data on already-loaded series (resim.py lines 37-49):
the output starts as a copy of the camera data and the cursor starts at 0. -/
def reprocess (camera : List CamRow) (sensor : List SenRow) : Except ReprocError (List CamRow) :=
  reprocessAux sensor camera 0

/-- The sequence of sensor cursor positions matched to the camera rows, one
per camera row, produced by the same persistent-cursor sweep as
reprocessAux (resim.py lines 39-45). -/
def matchedIndices (sensor : List SenRow) : List CamRow → ℕ → List ℕ
  | [], _ => []
  | row :: rest, i =>
    let j := advanceCursor sensor row.Timestamp i
    j :: matchedIndices sensor rest j

/-- Helper for lastAtOrBefore: the largest index m below the bound n with
sensor timestamp at position m at or before t, scanning downward; 0 when no
position qualifies. -/
def lastAtOrBeforeAux (sensor : List SenRow) (t : ℚ) : ℕ → ℕ
  | 0 => 0
  | n + 1 =>
    if (sensor.getD n default).Timestamp ≤ t then n
    else lastAtOrBeforeAux sensor t n

/-- Formalisation of the selector named by the specification: the largest
sensor index whose timestamp is at or before t, and 0 when t precedes every
sensor timestamp (the zero-order-hold match index). -/
def lastAtOrBefore (sensor : List SenRow) (t : ℚ) : ℕ :=
  lastAtOrBeforeAux sensor t sensor.length

/-- The random draws consumed by one run of
FrontCameraSimulation.generate_data, indexed by the row index of the loop
(f_cam.py lines 20-48): tU is the uniform(-0.05, 0.05) time jitter, sU the
uniform(-0.05, 0.05) capped-speed jitter, yU the uniform(-1, 1) yaw rate,
iR the randint(1, 16) draw for Signal1, gU the uniform(-10, 10) jitter of
Signal2. -/
structure CamRand where
  tU : ℕ → Set.Icc (-0.05 : ℚ) 0.05
  sU : ℕ → Set.Icc (-0.05 : ℚ) 0.05
  yU : ℕ → Set.Icc (-1 : ℚ) 1
  iR : ℕ → Set.Icc (1 : ℤ) 15
  gU : ℕ → Set.Icc (-10 : ℚ) 10

/-- The initial camera row (f_cam.py line 17). -/
def camInit (from_id : ℤ) : CamRow :=
  { Timestamp := 100000000, FrameID := from_id, Speed := 60,
    YawRate := 0, Signal1 := 0, Signal2 := 0 }

/-- One iteration of the camera generation loop at row index ri
(f_cam.py lines 20-51): copy the previous row, then update Timestamp,
FrameID, Speed, YawRate, conditionally Signal1 (only when the frame id is
exactly 201) and conditionally Signal2 (when the updated Signal1 is at
least 5). -/
def camStep (from_id : ℤ) (r : CamRand) (ri : ℕ) (prev : CamRow) : CamRow :=
  let fid : ℤ := from_id + ri
  let s1 : ℤ := if fid = 201 then (r.iR ri : ℤ) else prev.Signal1
  { Timestamp := prev.Timestamp + 1000 * (27.7 + (r.tU ri : ℚ))
    FrameID := fid
    Speed := if prev.Speed + 0.08 ≤ 120 then prev.Speed + 0.08 else 120 + (r.sU ri : ℚ)
    YawRate := (r.yU ri : ℚ)
    Signal1 := s1
    Signal2 := if 5 ≤ s1 then 80 + (r.gU ri : ℚ) else prev.Signal2 }

/-- The rows produced from a current last row onward: row is already in the
data, ri is the row index of the next row to generate, and k more rows are
generated. -/
def camGenFrom (from_id : ℤ) (r : CamRand) (row : CamRow) (ri : ℕ) : ℕ → List CamRow
  | 0 => [row]
  | k + 1 => row :: camGenFrom from_id r (camStep from_id r ri row) (ri + 1) k

/-- FrontCameraSimulation.generate_data (f_cam.py lines 12-52): the initial
row at index 0, then one generated row per loop index in range(1, frames).
With frames = 0 or frames = 1 the range is empty and only the initial row
is produced. -/
def generate_data_cam (from_id : ℤ) (frames : ℕ) (r : CamRand) : List CamRow :=
  camGenFrom from_id r (camInit from_id) 1 (frames - 1)

/-- The random draws consumed by one run of SensorSimulation.generate_data,
indexed by loop iteration (sensor.py lines 23-45): tU is the
uniform(-10, 10) time jitter, sU the uniform(-0.1, 0.1) capped-speed
jitter. -/
structure SenRand where
  tU : ℕ → Set.Icc (-10 : ℚ) 10
  sU : ℕ → Set.Icc (-0.1 : ℚ) 0.1

/-- One candidate row of the sensor generation loop at iteration i
(sensor.py lines 25-37): copy the previous row, add the jittered 200 ms
time increment, and step the speed. -/
def senStep (r : SenRand) (i : ℕ) (prev : SenRow) : SenRow :=
  { Timestamp := prev.Timestamp + 1000 * (200 + (r.tU i : ℚ))
    Speed := if prev.Speed + 0.56 ≤ 120 then prev.Speed + 0.56 else 120 + (r.sU i : ℚ) }

/-- The while loop of SensorSimulation.generate_data (sensor.py lines
23-45), returning the suffix of the series from the already-appended last
row onward: while that row's timestamp is below the end bound, compute the
candidate next row; if the candidate's timestamp exceeds the end bound,
discard it and stop, otherwise append and continue. -/
def sensorLoop (endQ : ℚ) (r : SenRand) (i : ℕ) (row : SenRow) : List SenRow :=
  if row.Timestamp < endQ then
    let nr := senStep r i row
    if endQ < nr.Timestamp then [row]
    else row :: sensorLoop endQ r (i + 1) nr
  else [row]
termination_by (Int.ceil (endQ - row.Timestamp)).toNat
decreasing_by
  rename_i hlt _
  have hinc : row.Timestamp + 190000 ≤ (senStep r i row).Timestamp := by
    have h10 : (-10 : ℚ) ≤ (r.tU i : ℚ) := (Set.mem_Icc.mp (r.tU i).2).1
    simp only [senStep]
    nlinarith
  have hle : ¬ endQ < (senStep r i row).Timestamp := by assumption
  push_neg at hle
  have h1 : Int.ceil (endQ - (senStep r i row).Timestamp)
      ≤ Int.ceil (endQ - row.Timestamp) - 190000 := by
    have hstep : endQ - (senStep r i row).Timestamp
        ≤ (endQ - row.Timestamp) - ((190000 : ℤ) : ℚ) := by
      push_cast
      linarith
    calc Int.ceil (endQ - (senStep r i row).Timestamp)
        ≤ Int.ceil ((endQ - row.Timestamp) - ((190000 : ℤ) : ℚ)) := Int.ceil_le_ceil hstep
      _ = Int.ceil (endQ - row.Timestamp) - 190000 := Int.ceil_sub_int _ _
  have h2 : 0 < Int.ceil (endQ - row.Timestamp) := Int.ceil_pos.mpr (by linarith)
  omega

/-- SensorSimulation.generate_data (sensor.py lines 14-47): the conversion
factor 1000000 is applied to the second bounds in the constructor
(sensor.py lines 10-12), the initial row has the start timestamp and speed
60, and the loop runs from the initial row with iteration index 0. -/
def generate_data_sen (from_s to_s : ℚ) (r : SenRand) : List SenRow :=
  sensorLoop (1000000 * to_s) r 0 { Timestamp := 1000000 * from_s, Speed := 60 }

/-- A concrete camera random source: all uniform draws 0, the Signal1 draw 1. -/
def camRand0 : CamRand :=
  { tU := fun _ => ⟨0, by norm_num⟩, sU := fun _ => ⟨0, by norm_num⟩,
    yU := fun _ => ⟨0, by norm_num⟩, iR := fun _ => ⟨1, by norm_num⟩,
    gU := fun _ => ⟨0, by norm_num⟩ }

/-- A concrete sensor random source: all uniform draws 0. -/
def senRand0 : SenRand :=
  { tU := fun _ => ⟨0, by norm_num⟩, sU := fun _ => ⟨0, by norm_num⟩ }

/-- A concrete sensor row at timestamp 0 with speed 0. -/
def senRow0 : SenRow := { Timestamp := 0, Speed := 0 }

/-- The camera series of the concrete fusion scenario of the specification
(also the fixture of test_proc.py lines 13-20). -/
def cameraC5 : List CamRow :=
  [{ Timestamp := 100000000, FrameID := 100, Speed := 60,
     YawRate := 0.1, Signal1 := 0, Signal2 := 0 },
   { Timestamp := 100027700, FrameID := 101, Speed := 60.08,
     YawRate := -0.2, Signal1 := 0, Signal2 := 0 },
   { Timestamp := 100055400, FrameID := 102, Speed := 60.16,
     YawRate := 0.3, Signal1 := 0, Signal2 := 0 }]

/-- The sensor series of the concrete fusion scenario of the specification
(also the fixture of test_proc.py lines 23-26). -/
def sensorC5 : List SenRow :=
  [{ Timestamp := 99900000, Speed := 59 },
   { Timestamp := 100025000, Speed := 59.56 },
   { Timestamp := 100052000, Speed := 60.12 },
   { Timestamp := 100080000, Speed := 60.68 }]

/-- C2: on a non-empty camera series and an empty sensor series the fusion
loop does not return a fused series, but the failure it produces is an
uncaught KeyError from indexing the non-existent sensor row 0 — not a
distinct IncompatibleInputs failure as the claim and the specification
require. -/
theorem C2_empty_sensor_keyerror :
    reprocess [camInit 100] [] = Except.error (ReprocError.keyError 0) := by
  simp [reprocess, reprocessAux, advanceCursor, advanceCursorAux]

/-- C3: when the camera series is empty the fusion loop body never runs and
the result is the empty fused series (the copy of the empty camera data,
hence with the camera's column schema), with no error, whatever the sensor
series holds — in particular when both series are empty. -/
theorem C3_empty_camera_ok (sensor : List SenRow) :
    reprocess [] sensor = Except.ok [] := rfl

/-- C5: on the concrete scenario of the specification, the sweep matches
sensor indices 0, 1, 2 to the three camera rows and the fused speeds are
59.5, 59.82, 60.14. -/
theorem C5_concrete_scenario :
    matchedIndices sensorC5 cameraC5 0 = [0, 1, 2] ∧
    ∃ out, reprocess cameraC5 sensorC5 = Except.ok out ∧
      out.map CamRow.Speed = [59.5, 59.82, 60.14] := by
  constructor
  · norm_num [matchedIndices, cameraC5, sensorC5, advanceCursor, advanceCursorAux]
  · refine ⟨_, rfl, ?_⟩
    norm_num [reprocess, reprocessAux, cameraC5, sensorC5, advanceCursor, advanceCursorAux]

lemma sortedSen_getD_mono {sensor : List SenRow}
    (hss : sensor.Pairwise fun a b => a.Timestamp ≤ b.Timestamp)
    {j k : ℕ} (hjk : j ≤ k) (hk : k < sensor.length) :
    (sensor.getD j default).Timestamp ≤ (sensor.getD k default).Timestamp := by
  rcases lt_or_eq_of_le hjk with h | h
  · have hj : j < sensor.length := lt_trans h hk
    have hpw := List.pairwise_iff_get.mp hss ⟨j, hj⟩ ⟨k, hk⟩ h
    rw [List.getD_eq_getElem sensor default hj, List.getD_eq_getElem sensor default hk]
    simpa using hpw
  · subst h
    exact le_refl _

lemma lastAtOrBeforeAux_of_forall_gt (sensor : List SenRow) (t : ℚ) :
    ∀ n, (∀ j, j < n → t < (sensor.getD j default).Timestamp) →
      lastAtOrBeforeAux sensor t n = 0 := by
  intro n
  induction n with
  | zero => intro _; rfl
  | succ n ih =>
    intro h
    rw [lastAtOrBeforeAux, if_neg (not_le.mpr (h n (Nat.lt_succ_self n)))]
    exact ih fun j hj => h j (Nat.lt_succ_of_lt hj)

lemma lastAtOrBeforeAux_eq_of (sensor : List SenRow) (t : ℚ) :
    ∀ n k, k < n → (sensor.getD k default).Timestamp ≤ t →
      (∀ j, k < j → j < n → t < (sensor.getD j default).Timestamp) →
      lastAtOrBeforeAux sensor t n = k := by
  intro n
  induction n with
  | zero => intro k hk _ _; omega
  | succ n ih =>
    intro k hk hle hgt
    by_cases hkn : k = n
    · subst hkn
      rw [lastAtOrBeforeAux, if_pos hle]
    · have hk2 : k < n := by omega
      rw [lastAtOrBeforeAux, if_neg (not_le.mpr (hgt n hk2 (Nat.lt_succ_self n)))]
      exact ih k hk2 hle fun j hj1 hj2 => hgt j hj1 (Nat.lt_succ_of_lt hj2)

lemma lastAtOrBeforeAux_lt (sensor : List SenRow) (t : ℚ) :
    ∀ n, 0 < n → lastAtOrBeforeAux sensor t n < n := by
  intro n
  induction n with
  | zero => intro h; omega
  | succ n ih =>
    intro _
    rw [lastAtOrBeforeAux]
    split_ifs with h
    · exact Nat.lt_succ_self n
    · rcases Nat.eq_zero_or_pos n with h0 | h0
      · subst h0
        simp [lastAtOrBeforeAux]
      · exact Nat.lt_succ_of_lt (ih h0)

lemma lastAtOrBefore_lt_length {sensor : List SenRow} (hs : sensor ≠ []) (t : ℚ) :
    lastAtOrBefore sensor t < sensor.length :=
  lastAtOrBeforeAux_lt sensor t _ (List.length_pos.mpr hs)

lemma lastAtOrBeforeAux_zero_or_le (sensor : List SenRow) (t : ℚ) :
    ∀ n, lastAtOrBeforeAux sensor t n = 0 ∨
      (sensor.getD (lastAtOrBeforeAux sensor t n) default).Timestamp ≤ t := by
  intro n
  induction n with
  | zero => exact Or.inl rfl
  | succ n ih =>
    rw [lastAtOrBeforeAux]
    split_ifs with h
    · exact Or.inr h
    · exact ih

lemma advanceCursorAux_eq_lastAtOrBefore {sensor : List SenRow} (t : ℚ)
    (hss : sensor.Pairwise fun a b => a.Timestamp ≤ b.Timestamp) :
    ∀ fuel i, sensor.length ≤ i + fuel → i < sensor.length →
      (i = 0 ∨ (sensor.getD i default).Timestamp ≤ t) →
      advanceCursorAux sensor t fuel i = lastAtOrBefore sensor t := by
  intro fuel
  induction fuel with
  | zero => intro i h1 h2 _; omega
  | succ fuel ih =>
    intro i hfuel hi hpre
    rw [advanceCursorAux]
    split_ifs with hcond
    · exact ih (i + 1) (by omega) hcond.1 (Or.inr hcond.2)
    · push_neg at hcond
      have hgt : ∀ j, i < j → j < sensor.length → t < (sensor.getD j default).Timestamp := by
        intro j hij hj
        have hi1 : i + 1 < sensor.length := by omega
        have h1 : t < (sensor.getD (i + 1) default).Timestamp := hcond hi1
        exact lt_of_lt_of_le h1 (sortedSen_getD_mono hss (by omega) hj)
      rcases hpre with h0 | hle
      · subst h0
        by_cases hts : (sensor.getD 0 default).Timestamp ≤ t
        · rw [lastAtOrBefore]
          exact (lastAtOrBeforeAux_eq_of sensor t _ 0 hi hts fun j hj1 hj2 => hgt j hj1 hj2).symm
        · rw [lastAtOrBefore]
          refine (lastAtOrBeforeAux_of_forall_gt sensor t _ fun j hj => ?_).symm
          rcases Nat.eq_zero_or_pos j with rfl | hj0
          · exact not_le.mp hts
          · exact hgt j hj0 hj
      · rw [lastAtOrBefore]
        exact (lastAtOrBeforeAux_eq_of sensor t _ i hi hle hgt).symm

lemma advanceCursor_eq_lastAtOrBefore {sensor : List SenRow} (t : ℚ)
    (hss : sensor.Pairwise fun a b => a.Timestamp ≤ b.Timestamp) {i : ℕ}
    (hi : i < sensor.length)
    (hpre : i = 0 ∨ (sensor.getD i default).Timestamp ≤ t) :
    advanceCursor sensor t i = lastAtOrBefore sensor t :=
  advanceCursorAux_eq_lastAtOrBefore t hss _ i (by omega) hi hpre

lemma reprocessAux_ok_spec (sensor : List SenRow) :
    ∀ (camera : List CamRow) (i : ℕ) (out : List CamRow),
      reprocessAux sensor camera i = Except.ok out →
      out.length = camera.length ∧
      ∀ k, k < camera.length →
        (out.getD k default).Timestamp = (camera.getD k default).Timestamp ∧
        (out.getD k default).FrameID = (camera.getD k default).FrameID ∧
        (out.getD k default).YawRate = (camera.getD k default).YawRate ∧
        (out.getD k default).Signal1 = (camera.getD k default).Signal1 ∧
        (out.getD k default).Signal2 = (camera.getD k default).Signal2 := by
  intro camera
  induction camera with
  | nil =>
    intro i out h
    simp only [reprocessAux] at h
    injection h with h
    subst h
    exact ⟨rfl, by intro k hk; simp at hk⟩
  | cons row rest ih =>
    intro i out h
    simp only [reprocessAux] at h
    by_cases hj : advanceCursor sensor row.Timestamp i < sensor.length
    · rw [if_pos hj] at h
      cases hrec : reprocessAux sensor rest (advanceCursor sensor row.Timestamp i) with
      | error e => rw [hrec] at h; exact absurd h (by simp)
      | ok out2 =>
        rw [hrec] at h
        injection h with h
        subst h
        obtain ⟨hlen, hfields⟩ := ih _ _ hrec
        refine ⟨by simp [hlen], ?_⟩
        intro k hk
        cases k with
        | zero => simp
        | succ k =>
          simp only [List.getD_cons_succ]
          exact hfields k (by simpa using Nat.lt_of_succ_lt_succ hk)
    · rw [if_neg hj] at h
      exact absurd h (by simp)

lemma reprocessAux_speed_spec {sensor : List SenRow} (hs : sensor ≠ [])
    (hss : sensor.Pairwise fun a b => a.Timestamp ≤ b.Timestamp) :
    ∀ (camera : List CamRow) (i : ℕ),
      i < sensor.length →
      (∀ c ∈ camera, i = 0 ∨ (sensor.getD i default).Timestamp ≤ c.Timestamp) →
      camera.Pairwise (fun a b => a.Timestamp ≤ b.Timestamp) →
      ∃ out, reprocessAux sensor camera i = Except.ok out ∧
        ∀ k, k < camera.length →
          (out.getD k default).Speed =
            ((camera.getD k default).Speed +
             (sensor.getD (lastAtOrBefore sensor (camera.getD k default).Timestamp) default).Speed) / 2 := by
  intro camera
  induction camera with
  | nil =>
    intro i hi _ _
    exact ⟨[], rfl, by intro k hk; simp at hk⟩
  | cons row rest ih =>
    intro i hi hfor hsorted
    have hpre : i = 0 ∨ (sensor.getD i default).Timestamp ≤ row.Timestamp :=
      hfor row (List.mem_cons_self _ _)
    have hj : advanceCursor sensor row.Timestamp i = lastAtOrBefore sensor row.Timestamp :=
      advanceCursor_eq_lastAtOrBefore row.Timestamp hss hi hpre
    have hjlt : lastAtOrBefore sensor row.Timestamp < sensor.length :=
      lastAtOrBefore_lt_length hs _
    rw [List.pairwise_cons] at hsorted
    obtain ⟨hrow_le, hsorted2⟩ := hsorted
    have hfor2 : ∀ c ∈ rest, lastAtOrBefore sensor row.Timestamp = 0 ∨
        (sensor.getD (lastAtOrBefore sensor row.Timestamp) default).Timestamp ≤ c.Timestamp := by
      intro c hc
      rcases lastAtOrBeforeAux_zero_or_le sensor row.Timestamp sensor.length with h0 | hle
      · exact Or.inl h0
      · exact Or.inr (le_trans hle (hrow_le c hc))
    obtain ⟨out2, hrec, hspec⟩ := ih (lastAtOrBefore sensor row.Timestamp) hjlt hfor2 hsorted2
    refine ⟨{ row with
        Speed := (row.Speed +
          (sensor.getD (lastAtOrBefore sensor row.Timestamp) default).Speed) / 2 } :: out2, ?_, ?_⟩
    · simp only [reprocessAux]
      rw [hj, if_pos hjlt, hrec]
    · intro k hk
      cases k with
      | zero => simp
      | succ k =>
        simp only [List.getD_cons_succ]
        exact hspec k (by simpa using Nat.lt_of_succ_lt_succ hk)

/-- C1: for every non-empty camera series with non-decreasing timestamps
and every non-empty sensor series with non-decreasing timestamps, fusion
succeeds and the fused sample at position k has speed equal to the average
of the camera speed at k and the sensor speed at the largest sensor index
whose timestamp is at or before the camera timestamp (index 0 when the
camera timestamp precedes every sensor timestamp): zero-order-hold, never
interpolated. -/
theorem C1_zero_order_hold (camera : List CamRow) (sensor : List SenRow)
    (hcne : camera ≠ []) (hsne : sensor ≠ [])
    (hcs : camera.Pairwise fun a b => a.Timestamp ≤ b.Timestamp)
    (hss : sensor.Pairwise fun a b => a.Timestamp ≤ b.Timestamp) :
    ∃ out, reprocess camera sensor = Except.ok out ∧
      ∀ k, k < camera.length →
        (out.getD k default).Speed =
          ((camera.getD k default).Speed +
           (sensor.getD (lastAtOrBefore sensor (camera.getD k default).Timestamp) default).Speed) / 2 :=
  reprocessAux_speed_spec hsne hss camera 0 (List.length_pos.mpr hsne) (fun c _ => Or.inl rfl) hcs

theorem C1_witness :
    ∃ out, reprocess [camInit 100] [senRow0] = Except.ok out ∧
      ∀ k, k < ([camInit 100] : List CamRow).length →
        (out.getD k default).Speed =
          (([camInit 100].getD k default).Speed +
           ([senRow0].getD
             (lastAtOrBefore [senRow0] ([camInit 100].getD k default).Timestamp) default).Speed) / 2 :=
  C1_zero_order_hold [camInit 100] [senRow0] (by simp) (by simp) (by simp) (by simp)

/-- The fused row of the witness scenario: the initial camera row with its
speed averaged against the sensor speed 0. -/
def fusedW : CamRow := { camInit 100 with Speed := 30 }

/-- C4: whenever fusion succeeds, the fused series has exactly the length
of the camera series and every field other than Speed (Timestamp, FrameID,
YawRate, Signal1, Signal2) of every fused sample equals the corresponding
field of the camera sample at the same position. -/
theorem C4_schema_preserved (camera : List CamRow) (sensor : List SenRow) (out : List CamRow)
    (h : reprocess camera sensor = Except.ok out) :
    out.length = camera.length ∧
    ∀ k, k < camera.length →
      (out.getD k default).Timestamp = (camera.getD k default).Timestamp ∧
      (out.getD k default).FrameID = (camera.getD k default).FrameID ∧
      (out.getD k default).YawRate = (camera.getD k default).YawRate ∧
      (out.getD k default).Signal1 = (camera.getD k default).Signal1 ∧
      (out.getD k default).Signal2 = (camera.getD k default).Signal2 :=
  reprocessAux_ok_spec sensor camera 0 out h

theorem C4_witness :
    ([fusedW] : List CamRow).length = ([camInit 100] : List CamRow).length ∧
    ∀ k, k < ([camInit 100] : List CamRow).length →
      (([fusedW] : List CamRow).getD k default).Timestamp = ([camInit 100].getD k default).Timestamp ∧
      (([fusedW] : List CamRow).getD k default).FrameID = ([camInit 100].getD k default).FrameID ∧
      (([fusedW] : List CamRow).getD k default).YawRate = ([camInit 100].getD k default).YawRate ∧
      (([fusedW] : List CamRow).getD k default).Signal1 = ([camInit 100].getD k default).Signal1 ∧
      (([fusedW] : List CamRow).getD k default).Signal2 = ([camInit 100].getD k default).Signal2 :=
  C4_schema_preserved [camInit 100] [senRow0] [fusedW]
    (by norm_num [reprocess, reprocessAux, advanceCursor, advanceCursorAux, fusedW, camInit, senRow0])

lemma camStep_frameID (from_id : ℤ) (r : CamRand) (ri : ℕ) (prev : CamRow) :
    (camStep from_id r ri prev).FrameID = from_id + ri := by
  simp [camStep]

lemma camStep_signal1 (from_id : ℤ) (r : CamRand) (ri : ℕ) (prev : CamRow) :
    (camStep from_id r ri prev).Signal1 =
      if from_id + ri = 201 then (r.iR ri : ℤ) else prev.Signal1 := by
  simp [camStep]

lemma camStep_speed (from_id : ℤ) (r : CamRand) (ri : ℕ) (prev : CamRow) :
    (camStep from_id r ri prev).Speed =
      if prev.Speed + 0.08 ≤ 120 then prev.Speed + 0.08 else 120 + (r.sU ri : ℚ) := by
  simp [camStep]

lemma camGenFrom_length (from_id : ℤ) (r : CamRand) :
    ∀ (k : ℕ) (row : CamRow) (ri : ℕ), (camGenFrom from_id r row ri k).length = k + 1 := by
  intro k
  induction k with
  | zero => intro row ri; rfl
  | succ k ih => intro row ri; rw [camGenFrom]; simp [ih]

lemma camGenFrom_getD_zero (from_id : ℤ) (r : CamRand) (k : ℕ) (row : CamRow) (ri : ℕ) :
    (camGenFrom from_id r row ri k).getD 0 default = row := by
  cases k <;> rfl

lemma camGenFrom_frameID (from_id : ℤ) (r : CamRand) :
    ∀ (k : ℕ) (row : CamRow) (ri j : ℕ), j ≤ k → 1 ≤ j →
      ((camGenFrom from_id r row ri k).getD j default).FrameID =
        from_id + ri + ((j - 1 : ℕ) : ℤ) := by
  intro k
  induction k with
  | zero => intro row ri j hjk hj1; omega
  | succ k ih =>
    intro row ri j hjk hj1
    obtain ⟨j2, rfl⟩ : ∃ j2, j = j2 + 1 := ⟨j - 1, by omega⟩
    rw [camGenFrom, List.getD_cons_succ]
    rcases Nat.eq_zero_or_pos j2 with rfl | hj2
    · rw [camGenFrom_getD_zero, camStep_frameID]
      norm_num
    · rw [ih (camStep from_id r ri row) (ri + 1) j2 (by omega) hj2]
      have h1 : ((j2 - 1 : ℕ) : ℤ) = (j2 : ℤ) - 1 := by omega
      have h2 : ((j2 + 1 - 1 : ℕ) : ℤ) = (j2 : ℤ) := by omega
      push_cast
      omega

lemma camGenFrom_signal1 (r : CamRand) :
    ∀ (k : ℕ) (row : CamRow) (ri : ℕ),
      row.FrameID = 100 + (ri : ℤ) - 1 →
      row.Signal1 = (if row.FrameID ≤ 200 then 0 else (r.iR 101 : ℤ)) →
      ∀ x ∈ camGenFrom 100 r row ri k,
        x.Signal1 = if x.FrameID ≤ 200 then 0 else (r.iR 101 : ℤ) := by
  intro k
  induction k with
  | zero =>
    intro row ri hfid hs1 x hx
    rw [camGenFrom] at hx
    simp only [List.mem_singleton] at hx
    subst hx
    exact hs1
  | succ k ih =>
    intro row ri hfid hs1 x hx
    rw [camGenFrom] at hx
    rcases List.mem_cons.mp hx with rfl | hx2
    · exact hs1
    · refine ih (camStep 100 r ri row) (ri + 1) ?_ ?_ x hx2
      · rw [camStep_frameID]; push_cast; ring
      · rw [camStep_signal1, camStep_frameID]
        by_cases h201 : (100 : ℤ) + ri = 201
        · have hri : ri = 101 := by omega
          subst hri
          rw [if_pos h201, if_neg (by omega : ¬ (100 : ℤ) + (101 : ℕ) ≤ 200)]
        · rw [if_neg h201, hs1, hfid]
          by_cases hle : (100 : ℤ) + ri ≤ 200
          · rw [if_pos (by omega : (100 : ℤ) + (ri : ℤ) - 1 ≤ 200), if_pos hle]
          · rw [if_neg (by omega : ¬ (100 : ℤ) + (ri : ℤ) - 1 ≤ 200), if_neg hle]

lemma camStep_speed_le (from_id : ℤ) (r : CamRand) (ri : ℕ) (prev : CamRow)
    (h : prev.Speed ≤ 120 + 0.05) :
    (camStep from_id r ri prev).Speed ≤ 120 + 0.05 := by
  rw [camStep_speed]
  split_ifs with hsp
  · linarith
  · have hub := (Set.mem_Icc.mp (r.sU ri).2).2
    linarith

lemma camGenFrom_speed_le (from_id : ℤ) (r : CamRand) :
    ∀ (k : ℕ) (row : CamRow) (ri : ℕ), row.Speed ≤ 120 + 0.05 →
      ∀ x ∈ camGenFrom from_id r row ri k, x.Speed ≤ 120 + 0.05 := by
  intro k
  induction k with
  | zero =>
    intro row ri h x hx
    rw [camGenFrom] at hx
    simp only [List.mem_singleton] at hx
    subst hx
    exact h
  | succ k ih =>
    intro row ri h x hx
    rw [camGenFrom] at hx
    rcases List.mem_cons.mp hx with rfl | hx2
    · exact h
    · exact ih (camStep from_id r ri row) (ri + 1) (camStep_speed_le from_id r ri row h) x hx2

lemma senStep_ts_lt (r : SenRand) (i : ℕ) (prev : SenRow) :
    prev.Timestamp < (senStep r i prev).Timestamp := by
  have h10 : (-10 : ℚ) ≤ (r.tU i : ℚ) := (Set.mem_Icc.mp (r.tU i).2).1
  simp only [senStep]
  nlinarith

lemma senStep_speed_le (r : SenRand) (i : ℕ) (prev : SenRow)
    (h : prev.Speed ≤ 120 + 0.1) :
    (senStep r i prev).Speed ≤ 120 + 0.1 := by
  simp only [senStep]
  split_ifs with hsp
  · linarith
  · have hub := (Set.mem_Icc.mp (r.sU i).2).2
    linarith

lemma sensorLoop_head (endQ : ℚ) (r : SenRand) (i : ℕ) (row : SenRow) :
    (sensorLoop endQ r i row).head? = some row := by
  rw [sensorLoop]
  by_cases h1 : row.Timestamp < endQ
  · rw [if_pos h1]
    show (if endQ < (senStep r i row).Timestamp then [row]
      else row :: sensorLoop endQ r (i + 1) (senStep r i row)).head? = some row
    by_cases h2 : endQ < (senStep r i row).Timestamp
    · rw [if_pos h2]
      rfl
    · rw [if_neg h2]
      rfl
  · rw [if_neg h1]
    rfl

lemma sensorLoop_speed_le (endQ : ℚ) (r : SenRand) :
    ∀ (i : ℕ) (row : SenRow), row.Speed ≤ 120 + 0.1 →
      ∀ x ∈ sensorLoop endQ r i row, x.Speed ≤ 120 + 0.1 := by
  intro i row
  induction i, row using sensorLoop.induct endQ r with
  | case1 i row h1 nr h2 =>
    intro hsp x hx
    rw [sensorLoop, if_pos h1, if_pos h2] at hx
    simp only [List.mem_singleton] at hx
    subst hx
    exact hsp
  | case2 i row h1 nr h2 ih =>
    intro hsp x hx
    rw [sensorLoop, if_pos h1, if_neg h2] at hx
    rcases List.mem_cons.mp hx with rfl | hx2
    · exact hsp
    · exact ih (senStep_speed_le r i row hsp) x hx2
  | case3 i row h1 =>
    intro hsp x hx
    rw [sensorLoop, if_neg h1] at hx
    simp only [List.mem_singleton] at hx
    subst hx
    exact hsp

lemma sensorLoop_ts_le (endQ : ℚ) (r : SenRand) :
    ∀ (i : ℕ) (row : SenRow), row.Timestamp ≤ endQ →
      ∀ x ∈ sensorLoop endQ r i row, x.Timestamp ≤ endQ := by
  intro i row
  induction i, row using sensorLoop.induct endQ r with
  | case1 i row h1 nr h2 =>
    intro hts x hx
    rw [sensorLoop, if_pos h1, if_pos h2] at hx
    simp only [List.mem_singleton] at hx
    subst hx
    exact hts
  | case2 i row h1 nr h2 ih =>
    intro hts x hx
    rw [sensorLoop, if_pos h1, if_neg h2] at hx
    rcases List.mem_cons.mp hx with rfl | hx2
    · exact hts
    · exact ih (le_of_not_lt h2) x hx2
  | case3 i row h1 =>
    intro hts x hx
    rw [sensorLoop, if_neg h1] at hx
    simp only [List.mem_singleton] at hx
    subst hx
    exact hts

lemma sensorLoop_chain (endQ : ℚ) (r : SenRand) :
    ∀ (i : ℕ) (row : SenRow),
      List.Chain' (fun a b => a.Timestamp < b.Timestamp) (sensorLoop endQ r i row) := by
  intro i row
  induction i, row using sensorLoop.induct endQ r with
  | case1 i row h1 nr h2 =>
    rw [sensorLoop, if_pos h1, if_pos h2]
    exact List.chain'_singleton _
  | case2 i row h1 nr h2 ih =>
    rw [sensorLoop, if_pos h1, if_neg h2]
    rw [List.chain'_cons']
    refine ⟨?_, ih⟩
    intro b hb
    rw [sensorLoop_head] at hb
    simp only [Option.mem_some_iff] at hb
    subst hb
    exact senStep_ts_lt r i row
  | case3 i row h1 =>
    rw [sensorLoop, if_neg h1]
    exact List.chain'_singleton _

/-- C6 counterexample: with frame_count 0 the generator still produces the
unconditional initial row, so the series has length 1, not 0. -/
theorem C6_counterexample : ¬ (generate_data_cam 100 0 camRand0).length = 0 := by
  simp [generate_data_cam, camGenFrom]

/-- C6 (amended to frame_count at least 1): the camera generator produces
exactly frame_count samples and the sample at position k has frame id
start_frame_id + k. -/
theorem C6_frame_ids (from_id : ℤ) (frames : ℕ) (r : CamRand) (h : 1 ≤ frames) :
    (generate_data_cam from_id frames r).length = frames ∧
    ∀ k, k < frames →
      ((generate_data_cam from_id frames r).getD k default).FrameID = from_id + k := by
  constructor
  · rw [generate_data_cam, camGenFrom_length]
    omega
  · intro k hk
    rcases Nat.eq_zero_or_pos k with rfl | hk1
    · rw [generate_data_cam, camGenFrom_getD_zero]
      simp [camInit]
    · rw [generate_data_cam, camGenFrom_frameID from_id r _ _ _ k (by omega) hk1]
      push_cast
      omega

theorem C6_witness :
    1 ≤ 2 ∧ ((generate_data_cam 100 2 camRand0).length = 2 ∧
      ∀ k, k < 2 → ((generate_data_cam 100 2 camRand0).getD k default).FrameID = 100 + k) :=
  ⟨by norm_num, C6_frame_ids 100 2 camRand0 (by norm_num)⟩

/-- C7 counterexample: with start_frame_id 200, the sample at position 1
has frame id 201, within start_frame_id + 100, yet its Signal1 is already
nonzero: the code triggers on the hardcoded frame id 201, not on
start_frame_id + 101. -/
theorem C7_counterexample :
    ((generate_data_cam 200 2 camRand0).getD 1 default).FrameID = 201 ∧
    (201 : ℤ) ≤ 200 + 100 ∧
    ((generate_data_cam 200 2 camRand0).getD 1 default).Signal1 ≠ 0 := by
  refine ⟨?_, by norm_num, ?_⟩ <;>
    simp [generate_data_cam, camGenFrom, camStep, camRand0, camInit]

/-- C7 (amended to start_frame_id = 100, for which the hardcoded trigger
frame id 201 equals start_frame_id + 101): Signal1 is 0 for every sample
with frame id at most 200 and equals the single draw of the run, an
integer in 1..15, for every sample with frame id above 200. -/
theorem C7_signal1_threshold (frames : ℕ) (r : CamRand) :
    (1 ≤ (r.iR 101 : ℤ) ∧ (r.iR 101 : ℤ) ≤ 15) ∧
    ∀ x ∈ generate_data_cam 100 frames r,
      x.Signal1 = if x.FrameID ≤ 200 then 0 else (r.iR 101 : ℤ) := by
  refine ⟨Set.mem_Icc.mp (r.iR 101).2, ?_⟩
  intro x hx
  exact camGenFrom_signal1 r _ (camInit 100) 1 (by simp [camInit])
    (by simp [camInit]) x hx

theorem C7_witness :
    camInit 100 ∈ generate_data_cam 100 1 camRand0 ∧
    (camInit 100).Signal1 =
      if (camInit 100).FrameID ≤ 200 then 0 else (camRand0.iR 101 : ℤ) :=
  ⟨by simp [generate_data_cam, camGenFrom],
   (C7_signal1_threshold 1 camRand0).2 _ (by simp [generate_data_cam, camGenFrom])⟩

/-- C8: every sample of every generated camera series has speed at most
120 + 0.05 and every sample of every generated sensor series has speed at
most 120 + 0.1, for all draw streams within their stated ranges, by the
step-preserved invariant from the initial speed 60. -/
theorem C8_speed_bounds :
    (∀ (from_id : ℤ) (frames : ℕ) (r : CamRand),
       ∀ x ∈ generate_data_cam from_id frames r, x.Speed ≤ 120 + 0.05) ∧
    (∀ (from_s to_s : ℚ) (r : SenRand),
       ∀ x ∈ generate_data_sen from_s to_s r, x.Speed ≤ 120 + 0.1) := by
  constructor
  · intro from_id frames r x hx
    exact camGenFrom_speed_le from_id r _ (camInit from_id) 1
      (by norm_num [camInit]) x hx
  · intro from_s to_s r x hx
    exact sensorLoop_speed_le _ r 0 _ (by norm_num) x hx

theorem C8_witness :
    (camInit 100).Speed ≤ 120 + 0.05 ∧
    ({ Timestamp := 1000000 * 100, Speed := 60 } : SenRow).Speed ≤ 120 + 0.1 :=
  ⟨C8_speed_bounds.1 100 1 camRand0 _ (by simp [generate_data_cam, camGenFrom]),
   C8_speed_bounds.2 100 100 senRand0 _ (by rw [generate_data_sen, sensorLoop]; norm_num)⟩

/-- C9 counterexample: with start 200 s and end 100 s the generated series
is the single unconditional initial sample, whose timestamp 200000000
exceeds the end bound 100000000. -/
theorem C9_counterexample :
    ¬ ∀ x ∈ generate_data_sen 200 100 senRand0, x.Timestamp ≤ 1000000 * 100 := by
  intro h
  have hmem : ({ Timestamp := 200000000, Speed := 60 } : SenRow) ∈
      generate_data_sen 200 100 senRand0 := by
    rw [generate_data_sen, sensorLoop]
    norm_num
  have := h _ hmem
  norm_num at this

/-- C9 (amended to start_seconds at most end_seconds): the sensor series
has strictly increasing timestamps and every timestamp is at or below
end_seconds times 1e6; a candidate beyond the bound is discarded and
generation stops. -/
theorem C9_end_bound (from_s to_s : ℚ) (r : SenRand) (h : from_s ≤ to_s) :
    List.Chain' (fun a b => a.Timestamp < b.Timestamp)
      (generate_data_sen from_s to_s r) ∧
    ∀ x ∈ generate_data_sen from_s to_s r, x.Timestamp ≤ 1000000 * to_s := by
  refine ⟨sensorLoop_chain _ r 0 _, ?_⟩
  exact sensorLoop_ts_le _ r 0 _ (by simpa using (by linarith : 1000000 * from_s ≤ 1000000 * to_s))

theorem C9_witness :
    (100 : ℚ) ≤ 100 ∧
    (List.Chain' (fun a b => a.Timestamp < b.Timestamp)
       (generate_data_sen 100 100 senRand0) ∧
     ∀ x ∈ generate_data_sen 100 100 senRand0, x.Timestamp ≤ 1000000 * 100) :=
  ⟨le_refl _, C9_end_bound 100 100 senRand0 (le_refl _)⟩

/-- C10: for every start and end bound, also when the start is at or after
the end, the sensor generator returns a non-empty series whose first
sample has timestamp start_seconds times 1e6 and speed 60: the initial
sample is appended before any end-bound check, which constrains only
subsequent samples. -/
theorem C10_first_sample (from_s to_s : ℚ) (r : SenRand) :
    generate_data_sen from_s to_s r ≠ [] ∧
    (generate_data_sen from_s to_s r).head? =
      some { Timestamp := 1000000 * from_s, Speed := 60 } := by
  have hh := sensorLoop_head (1000000 * to_s) r 0
    ({ Timestamp := 1000000 * from_s, Speed := 60 } : SenRow)
  refine ⟨?_, hh⟩
  intro hnil
  rw [generate_data_sen] at hnil
  rw [hnil] at hh
  cases hh
